import Mathlib

/-!
Verification of the PoW-Faucet discord bot's rate-limited claim engine
(`pow_faucet_discord_bot.py`) against its natural-language specification.

The Python program is shallowly embedded below: the per-user ledger is a
map from identity to record, the register/claim/whoami command handlers
become pure state-passing functions, and the external transfer call is an
oracle parameter (the code only observes success or an exception).
-/

namespace PowFaucet

/-! ## Address validation (`normalize_addr`, line 50-54)

Python: `addr = (addr or "").strip()`, then `ADDR_RE.match(addr)` with
`ADDR_RE = ^[0-9a-fA-F]{40}$`, then `addr.lower()`.  Characters are
modelled by their code points. -/

/-- Python `str.strip` whitespace (ASCII part): space, tab, LF, CR, VT, FF. -/
def isPySpace (c : Char) : Bool :=
  c.toNat = 32 || c.toNat = 9 || c.toNat = 10 || c.toNat = 13 ||
  c.toNat = 11 || c.toNat = 12

/-- One character of the regex class `[0-9a-fA-F]`. -/
def isHexDigit (c : Char) : Bool :=
  (48 ≤ c.toNat && c.toNat ≤ 57) || (97 ≤ c.toNat && c.toNat ≤ 102) ||
  (65 ≤ c.toNat && c.toNat ≤ 70)

/-- Python `str.strip()`: drop leading and trailing whitespace. -/
def stripPy (l : List Char) : List Char :=
  ((l.dropWhile isPySpace).reverse.dropWhile isPySpace).reverse

/-- Python `str.lower()` on one ASCII character: `A`-`Z` gains 32. -/
def lowerChar (c : Char) : Char :=
  if 65 ≤ c.toNat ∧ c.toNat ≤ 90 then Char.ofNat (c.toNat + 32) else c

/-- `normalize_addr`: strip, require exactly 40 hex characters, lowercase.
`none` models the raised `ValueError("bad address format")`. -/
def normalize_addr (addr : String) : Option String :=
  if (stripPy addr.toList).length = 40 ∧ (stripPy addr.toList).all isHexDigit then
    some (String.mk ((stripPy addr.toList).map lowerChar))
  else
    none

/-! ## Data model (`load_data` / `get_user` / `set_user`)

A user record is a JSON object; the three keys the program reads or
writes are modelled as optional fields (a missing key is `none`).  The
ledger maps the stringified discord user id to a record. -/

structure UserRecord where
  address : Option String := none
  registered_at : Option Int := none
  last_claim_at : Option Int := none
deriving Repr, DecidableEq

def Ledger : Type := String → Option UserRecord

/-- The `{"users": {}}` store returned by `load_data` when no file exists. -/
def empty_ledger : Ledger := fun _ => none

/-- `get_user(data, uid)`. -/
def get_user (data : Ledger) (uid : String) : Option UserRecord := data uid

/-- `set_user(data, uid, rec)`. -/
def set_user (data : Ledger) (uid : String) (rec : UserRecord) : Ledger :=
  fun k => if k = uid then some rec else data k

/-! ## Results exposed to the front end -/

inductive RegisterResult
  | InvalidFormat
  | SelfAddressRejected
  | Registered (stored : String)
deriving Repr, DecidableEq

inductive ClaimResult
  | Misconfigured
  | NotRegistered
  | SelfAddressRejected
  | CooldownActive (remaining : Int)
  | ClaimFailed (msg : String)
  | Success (from_credits to_credits : Int)
deriving Repr, DecidableEq

inductive WhoamiResult
  | NotRegistered
  | Ready (address : String)
  | Cooldown (address : String) (remaining : Int)
deriving Repr, DecidableEq

/-- `bot.sender_address` truthiness test followed by the equality test:
`if bot.sender_address and addr == bot.sender_address`.  The resolved
sender address, when set, is a non-empty 40-hex string, so the Python
truthiness of the string is carried by the `Option`. -/
def matchesSender (sender : Option String) (addr : String) : Bool :=
  match sender with
  | none => false
  | some s => addr == s

/-! ## `register_address` (lines 186-225)

The chat plumbing (channel gate, deferred replies) is out of scope; the
handler body from `normalize_addr` on is embedded.  `t` is `now_ts()`. -/

def register_address (sender : Option String) (data : Ledger) (uid : String)
    (address : String) (t : Int) : Ledger × RegisterResult :=
  match normalize_addr address with
  | none => (data, .InvalidFormat)
  | some addr =>
    if matchesSender sender addr then
      (data, .SelfAddressRejected)
    else
      let rec0 := (get_user data uid).getD {}
      let rec1 : UserRecord :=
        { address := some addr
          registered_at := some t
          last_claim_at := some (rec0.last_claim_at.getD 0) }
      (set_user data uid rec1, .Registered addr)

/-! ## `claim` (lines 229-313)

The handler is two critical sections around one network call:
a check phase done while holding the file lock (read record, gates,
cooldown), the `api_transfer` call outside the lock, and a commit phase
under the lock again.  `claim_check` and `claim_commit` embed the two
sections; `claim` chains them sequentially on one ledger (the run with
no interleaved writer). -/

/-- Outcome of the check phase: either an early return, or proceed to
the transfer with the address and the timestamp read under the lock. -/
inductive CheckOutcome
  | reject (r : ClaimResult)
  | proceed (to_addr : String) (t : Int)
deriving Repr, DecidableEq

/-- Lines 236-267: secret gate, record lookup, self-address gate,
cooldown.  `secret` is `FAUCET_SENDER_SECRET`, `W` is
`COOLDOWN_SECONDS`, `t` is `now_ts()` taken at line 261. -/
def claim_check (secret : String) (sender : Option String) (W : Int)
    (data : Ledger) (uid : String) (t : Int) : CheckOutcome :=
  if secret = "" then .reject .Misconfigured
  else
    match get_user data uid with
    | none => .reject .NotRegistered
    | some rec =>
      match rec.address with
      | none => .reject .NotRegistered
      | some to_addr =>
        if to_addr = "" then .reject .NotRegistered
        else if matchesSender sender to_addr then .reject .SelfAddressRejected
        else
          let last_claim := rec.last_claim_at.getD 0
          if last_claim ≠ 0 ∧ t < last_claim + W then
            .reject (.CooldownActive (last_claim + W - t))
          else
            .proceed to_addr t

/-- Lines 298-304: re-read the record under the lock, write back
`address := to_addr` (the address read in the check phase) and
`last_claim_at := t` (the time computed in the check phase). -/
def claim_commit (data2 : Ledger) (uid : String) (to_addr : String) (t : Int) :
    Ledger :=
  let rec2 := (get_user data2 uid).getD {}
  let rec2' : UserRecord :=
    { rec2 with address := some to_addr, last_claim_at := some t }
  set_user data2 uid rec2'

/-- The result of `api_transfer`: a 200 response with parsed credits, or
any raised exception (non-200 status, timeout, malformed body) carrying
the message the handler string-matches on. -/
inductive TransferResult
  | success (from_credits to_credits : Int)
  | failure (msg : String)
deriving Repr, DecidableEq

/-- The whole `claim` handler run without interleaving: check phase and
commit phase see the same ledger.  `transfer` is the oracle for the one
network call. -/
def claim (secret : String) (sender : Option String) (W : Int)
    (data : Ledger) (uid : String) (t : Int) (transfer : TransferResult) :
    Ledger × ClaimResult :=
  match claim_check secret sender W data uid t with
  | .reject r => (data, r)
  | .proceed to_addr t' =>
    match transfer with
    | .failure msg => (data, .ClaimFailed msg)
    | .success fc tc => (claim_commit data uid to_addr t', .Success fc tc)

/-! ## `whoami` (lines 317-347) -/

def whoami (data : Ledger) (uid : String) (W t : Int) : WhoamiResult :=
  match get_user data uid with
  | none => .NotRegistered
  | some rec =>
    match rec.address with
    | none => .NotRegistered
    | some addr =>
      if addr = "" then .NotRegistered
      else
        let last_claim := rec.last_claim_at.getD 0
        if last_claim = 0 ∨ last_claim + W ≤ t then .Ready addr
        else .Cooldown addr (last_claim + W - t)

/-! ## Startup (`main`, lines 350-353, and module-level config) -/

/-- `main()`: the only startup abort is a missing `DISCORD_TOKEN`.
`FAUCET_SENDER_SECRET` and the data-file location are read but never
checked here. -/
def main (discordToken faucetSenderSecret : String)
    (dataFileEnv : Option String) : Except String Unit :=
  if discordToken = "" then .error "Missing DISCORD_TOKEN" else .ok ()

/-- `DATA_FILE = os.environ.get("FAUCET_BOT_DATA", "discord_pow_faucet.json")`. -/
def dataFileOf (env : Option String) : String :=
  env.getD "discord_pow_faucet.json"

/-! ## Persistence (`save_data`, lines 95-99)

`save_data` writes the serialized snapshot to `DATA_FILE + ".tmp"` and
then calls `os.replace(tmp, DATA_FILE)`.  The two file locations are
modelled explicitly; `os.replace` is atomic, a plain write is not. -/

/-- The two locations `save_data` touches: the `.tmp` scratch file and
the canonical `DATA_FILE`; `none` means the file does not exist. -/
structure FaucetStore where
  tmp : Option String
  canonical : Option String
deriving Repr, DecidableEq

inductive FsOp
  /-- `open(tmp, "w")` + `json.dump` + close: replaces the tmp file's
  content; interrupted, it can leave any prefix of the content there. -/
  | writeTmp (content : String)
  /-- `os.replace(tmp, DATA_FILE)`: atomic rename. -/
  | replaceTmp
deriving Repr, DecidableEq

/-- Effect of one completed operation. -/
def applyOp (fs : FaucetStore) : FsOp → FaucetStore
  | .writeTmp c => { fs with tmp := some c }
  | .replaceTmp => { tmp := none, canonical := fs.tmp }

/-- `save_data(data)` as its sequence of file operations. -/
def save_data (snapshot : String) : List FsOp :=
  [.writeTmp snapshot, .replaceTmp]

/-- States observable if the process dies in the middle of `op`: a
non-atomic write can leave any partial content at tmp; the atomic
rename leaves either the old state or the fully renamed one. -/
def midOp (fs : FaucetStore) : FsOp → FaucetStore → Prop
  | .writeTmp c, fs' => ∃ n, fs' = { fs with tmp := some (String.take c n) }
  | .replaceTmp, fs' => fs' = fs ∨ fs' = applyOp fs .replaceTmp

/-- `crashReach fs ops fs'`: the store can be observed in state `fs'`
when the process crashes at some point while running `ops` from `fs`
(before, during, or after any operation). -/
inductive crashReach : FaucetStore → List FsOp → FaucetStore → Prop
  | here (fs : FaucetStore) (ops : List FsOp) : crashReach fs ops fs
  | mid (fs : FaucetStore) (op : FsOp) (ops : List FsOp) (fs' : FaucetStore) :
      midOp fs op fs' → crashReach fs (op :: ops) fs'
  | step (fs : FaucetStore) (op : FsOp) (ops : List FsOp) (fs' : FaucetStore) :
      crashReach (applyOp fs op) ops fs' → crashReach fs (op :: ops) fs'

/-! ## Two concurrent claims by one identity

The handler holds the file lock only during the check phase and during
the commit phase; the `api_transfer` await sits between them.  So for
two invocations A and B by the same identity the schedule
check A, check B, transfer A, transfer B, commit A, commit B
is permitted: B's check runs after A's check and before A's commit, and
both checks read the same ledger. -/

def claim_pair_interleaved (secret : String) (sender : Option String) (W : Int)
    (data : Ledger) (uid : String) (tA tB : Int) (trA trB : TransferResult) :
    Ledger × ClaimResult × ClaimResult :=
  match claim_check secret sender W data uid tA with
  | .reject rA =>
    let dB := claim secret sender W data uid tB trB
    (dB.1, rA, dB.2)
  | .proceed aA tA' =>
    match claim_check secret sender W data uid tB with
    | .reject rB =>
      match trA with
      | .failure mA => (data, .ClaimFailed mA, rB)
      | .success fA cA => (claim_commit data uid aA tA', .Success fA cA, rB)
    | .proceed aB tB' =>
      match trA, trB with
      | .failure mA, .failure mB => (data, .ClaimFailed mA, .ClaimFailed mB)
      | .failure mA, .success fB cB =>
        (claim_commit data uid aB tB', .ClaimFailed mA, .Success fB cB)
      | .success fA cA, .failure mB =>
        (claim_commit data uid aA tA', .Success fA cA, .ClaimFailed mB)
      | .success fA cA, .success fB cB =>
        (claim_commit (claim_commit data uid aA tA') uid aB tB',
          .Success fA cA, .Success fB cB)

/-- A ledger with one registered user who has never claimed, used to
evaluate the operations on concrete inputs. -/
def sampleLedger : Ledger :=
  set_user empty_ledger "1"
    { address := some "ab", registered_at := some 3, last_claim_at := some 0 }

/-- A ledger with one registered user whose last successful claim was at
time 100. -/
def sampleLedgerClaimed : Ledger :=
  set_user empty_ledger "1"
    { address := some "ab", registered_at := some 3, last_claim_at := some 100 }

/-! ## Character-level facts about the address alphabet -/

theorem isPySpace_eq_false_of_isHexDigit {c : Char} (h : isHexDigit c = true) :
    isPySpace c = false := by
  simp only [isHexDigit, Bool.or_eq_true, Bool.and_eq_true, decide_eq_true_eq] at h
  simp only [isPySpace, Bool.or_eq_false_iff, decide_eq_false_iff_not]
  omega

theorem lowerChar_hex {c : Char} (h : isHexDigit c = true) :
    isHexDigit (lowerChar c) = true ∧ lowerChar (lowerChar c) = lowerChar c := by
  have h' := h
  simp only [isHexDigit, Bool.or_eq_true, Bool.and_eq_true, decide_eq_true_eq] at h'
  rcases h' with (⟨h1, h2⟩ | ⟨h1, h2⟩) | ⟨h1, h2⟩
  · have he : lowerChar c = c := by unfold lowerChar; exact if_neg (by omega)
    rw [he]
    exact ⟨h, he⟩
  · have he : lowerChar c = c := by unfold lowerChar; exact if_neg (by omega)
    rw [he]
    exact ⟨h, he⟩
  · have he : lowerChar c = Char.ofNat (c.toNat + 32) := by
      unfold lowerChar; exact if_pos ⟨h1, by omega⟩
    obtain ⟨n, hn⟩ : ∃ n, c.toNat = n := ⟨_, rfl⟩
    rw [hn] at h1 h2 he
    rw [he]
    clear hn he h
    interval_cases n <;> exact ⟨by decide, by decide⟩

theorem dropWhile_eq_self_of_not {p : Char → Bool} :
    ∀ l : List Char, (∀ c ∈ l, p c = false) → l.dropWhile p = l
  | [], _ => rfl
  | a :: l, h => by
    rw [List.dropWhile_cons, if_neg (by simp [h a (List.mem_cons_self a l)])]

theorem stripPy_eq_self {l : List Char} (h : ∀ c ∈ l, isPySpace c = false) :
    stripPy l = l := by
  unfold stripPy
  rw [dropWhile_eq_self_of_not l h,
    dropWhile_eq_self_of_not l.reverse (fun c hc => h c (List.mem_reverse.mp hc)),
    List.reverse_reverse]

theorem normalize_addr_of_hex (l : List Char) (hlen : l.length = 40)
    (hhex : l.all isHexDigit = true) :
    normalize_addr (String.mk l) = some (String.mk (l.map lowerChar)) := by
  have hnp : ∀ c ∈ l, isPySpace c = false := fun c hc =>
    isPySpace_eq_false_of_isHexDigit (List.all_eq_true.mp hhex c hc)
  have hs : stripPy (String.mk l).toList = l := stripPy_eq_self hnp
  unfold normalize_addr
  rw [hs, if_pos ⟨hlen, hhex⟩]

/-! ## Claim C6: address validation -/

/-- Claim C6 counterexample: the claim says `normalize` fails for every
input that is not exactly 40 hex characters, but the code strips
leading/trailing whitespace first, so the 41-character input consisting
of a space followed by 40 `a`s is accepted. -/
theorem normalize_addr_counterexample :
    (String.mk (' ' :: List.replicate 40 'a')).length ≠ 40 ∧
    ¬ ((String.mk (' ' :: List.replicate 40 'a')).toList.all isHexDigit = true) ∧
    normalize_addr (String.mk (' ' :: List.replicate 40 'a')) =
      some (String.mk (List.replicate 40 'a')) := by
  refine ⟨by decide, by decide, by decide⟩

/-- Claim C6 (amended): `normalize_addr` fails exactly when the input,
after stripping leading and trailing whitespace, is not 40 hex
characters (so the empty string and whitespace-only strings fail); every
40-character hex string in any case mix maps to its lowercase form; and
the function is idempotent on accepted inputs. -/
theorem normalize_addr_spec (s : String) :
    (normalize_addr s = none ↔
      ¬ ((stripPy s.toList).length = 40 ∧ (stripPy s.toList).all isHexDigit = true)) ∧
    (∀ l : List Char, l.length = 40 → l.all isHexDigit = true →
      normalize_addr (String.mk l) = some (String.mk (l.map lowerChar))) ∧
    (∀ out, normalize_addr s = some out → normalize_addr out = some out) := by
  refine ⟨?_, fun l h1 h2 => normalize_addr_of_hex l h1 h2, ?_⟩
  · by_cases hc : (stripPy s.toList).length = 40 ∧ (stripPy s.toList).all isHexDigit = true
    · simp [normalize_addr, hc]
    · simp [normalize_addr, hc]
  · intro out hout
    by_cases hc : (stripPy s.toList).length = 40 ∧ (stripPy s.toList).all isHexDigit = true
    · have hsome : normalize_addr s = some (String.mk ((stripPy s.toList).map lowerChar)) := by
        unfold normalize_addr
        rw [if_pos hc]
      rw [hsome, Option.some_inj] at hout
      subst hout
      have hlen : ((stripPy s.toList).map lowerChar).length = 40 := by
        rw [List.length_map]; exact hc.1
      have hhex : ((stripPy s.toList).map lowerChar).all isHexDigit = true := by
        rw [List.all_eq_true]
        intro c hcmem
        obtain ⟨d, hd, hdc⟩ := List.mem_map.mp hcmem
        rw [← hdc]
        exact (lowerChar_hex (List.all_eq_true.mp hc.2 d hd)).1
      have hidem : ((stripPy s.toList).map lowerChar).map lowerChar =
          (stripPy s.toList).map lowerChar := by
        rw [List.map_map]
        exact List.map_congr_left fun d hd =>
          (lowerChar_hex (List.all_eq_true.mp hc.2 d hd)).2
      have := normalize_addr_of_hex _ hlen hhex
      rw [hidem] at this
      exact this
    · exfalso
      unfold normalize_addr at hout
      rw [if_neg hc] at hout
      exact Option.noConfusion hout

/-- Claim C6 witness: the all-uppercase 40-hex string is accepted and
lowercased, and re-normalizing the output returns it unchanged. -/
theorem normalize_addr_spec_witness :
    normalize_addr (String.mk (List.replicate 40 'A')) =
      some (String.mk ((List.replicate 40 'A').map lowerChar)) ∧
    normalize_addr (String.mk ((List.replicate 40 'A').map lowerChar)) =
      some (String.mk ((List.replicate 40 'A').map lowerChar)) := by
  refine ⟨(normalize_addr_spec (String.mk (List.replicate 40 'A'))).2.1 _
    (by decide) (by decide), ?_⟩
  exact (normalize_addr_spec (String.mk (List.replicate 40 'A'))).2.2 _
    ((normalize_addr_spec (String.mk (List.replicate 40 'A'))).2.1 _
      (by decide) (by decide))

/-! ## Characterizations of the check phases -/

theorem normalize_addr_ne_empty {raw s : String} (h : normalize_addr raw = some s) :
    s ≠ "" := by
  unfold normalize_addr at h
  by_cases hc : (stripPy raw.toList).length = 40 ∧ (stripPy raw.toList).all isHexDigit = true
  · rw [if_pos hc, Option.some_inj] at h
    intro he
    rw [he] at h
    have hd := congrArg String.data h
    have hl := congrArg List.length hd
    rw [List.length_map, hc.1] at hl
    exact absurd hl (by decide)
  · rw [if_neg hc] at h
    exact Option.noConfusion h

/-- The check phase of `claim`, once the requester is registered with a
non-empty address distinct from the sender address and the secret is
configured, is exactly the cooldown test. -/
theorem claim_check_eq (secret : String) (sender : Option String) (W : Int)
    (data : Ledger) (uid : String) (rec : UserRecord) (a : String) (t : Int)
    (hsecret : secret ≠ "") (hrec : get_user data uid = some rec)
    (haddr : rec.address = some a) (hne : a ≠ "")
    (hsender : matchesSender sender a = false) :
    claim_check secret sender W data uid t =
      if rec.last_claim_at.getD 0 ≠ 0 ∧ t < rec.last_claim_at.getD 0 + W then
        .reject (.CooldownActive (rec.last_claim_at.getD 0 + W - t))
      else
        .proceed a t := by
  simp only [claim_check, hrec, haddr, if_neg hsecret, if_neg hne, hsender,
    Bool.false_eq_true, if_false]

/-- `whoami`, for a registered non-empty address, is exactly the same
cooldown test. -/
theorem whoami_eq (data : Ledger) (uid : String) (W t : Int)
    (rec : UserRecord) (a : String)
    (hrec : get_user data uid = some rec)
    (haddr : rec.address = some a) (hne : a ≠ "") :
    whoami data uid W t =
      if rec.last_claim_at.getD 0 = 0 ∨ rec.last_claim_at.getD 0 + W ≤ t then
        .Ready a
      else
        .Cooldown a (rec.last_claim_at.getD 0 + W - t) := by
  simp only [whoami, hrec, haddr, if_neg hne]

/-! ## Claim C1: no phantom commit -/

/-- Claim C1: once the check phase decides to call the transfer, a
failed transfer (error status, timeout, malformed response all surface
as the caught exception) returns `ClaimFailed` and leaves the whole
ledger — in particular `last_claim_at` — exactly as it was, so a later
claim is gated only by the prior cooldown state; the identity's record
is rewritten (with `last_claim_at := t`) exactly on a confirmed-success
transfer. -/
theorem claim_no_phantom_commit (secret : String) (sender : Option String)
    (W : Int) (data : Ledger) (uid : String) (t : Int) (a : String) (t' : Int)
    (h : claim_check secret sender W data uid t = .proceed a t') :
    (∀ msg, claim secret sender W data uid t (.failure msg) =
      (data, .ClaimFailed msg)) ∧
    (∀ tr : TransferResult, (∀ f c, tr ≠ .success f c) →
      (claim secret sender W data uid t tr).1 = data) ∧
    (∀ f c, get_user (claim secret sender W data uid t (.success f c)).1 uid =
      some { (get_user data uid).getD {} with
             address := some a, last_claim_at := some t' }) := by
  refine ⟨fun msg => by simp only [claim, h], ?_, ?_⟩
  · intro tr htr
    cases tr with
    | failure msg => simp only [claim, h]
    | success f c => exact absurd rfl (htr f c)
  · intro f c
    simp only [claim, h, claim_commit, get_user, set_user, if_pos]

/-- Claim C1 witness: a failed transfer for a registered, never-claimed
user returns `ClaimFailed` with the ledger untouched. -/
theorem claim_no_phantom_commit_witness :
    claim "s" none 86400 sampleLedger "1" 5 (.failure "boom") =
      (sampleLedger, .ClaimFailed "boom") :=
  (claim_no_phantom_commit "s" none 86400 sampleLedger "1" 5 "ab" 5
    (by decide)).1 "boom"

/-! ## Claim C2: cooldown boundary -/

/-- Claim C2: with `last_claim_at = T`, `T ≠ 0`, and window `W`, a claim
at time `T + W - 1` is rejected `CooldownActive` with `remaining = 1`, a
claim at time `T + W` passes the cooldown check and proceeds to the
transfer, and a record with `last_claim_at = 0` passes the cooldown
check at every time. -/
theorem cooldown_boundary (secret : String) (sender : Option String) (W : Int)
    (data : Ledger) (uid : String) (rec : UserRecord) (a : String)
    (hsecret : secret ≠ "") (hrec : get_user data uid = some rec)
    (haddr : rec.address = some a) (hne : a ≠ "")
    (hsender : matchesSender sender a = false) :
    (∀ T : Int, rec.last_claim_at.getD 0 = T → T ≠ 0 →
      claim_check secret sender W data uid (T + W - 1) =
        .reject (.CooldownActive 1) ∧
      claim_check secret sender W data uid (T + W) = .proceed a (T + W)) ∧
    (rec.last_claim_at.getD 0 = 0 →
      ∀ t, claim_check secret sender W data uid t = .proceed a t) := by
  constructor
  · intro T hT hT0
    constructor
    · rw [claim_check_eq secret sender W data uid rec a _ hsecret hrec haddr
        hne hsender, hT, if_pos ⟨hT0, by omega⟩]
      congr 2
      omega
    · rw [claim_check_eq secret sender W data uid rec a _ hsecret hrec haddr
        hne hsender, hT, if_neg (by omega)]
  · intro h0 t
    rw [claim_check_eq secret sender W data uid rec a t hsecret hrec haddr
      hne hsender, h0, if_neg (by omega)]

/-- Claim C2 witness: `T = 100`, `W = 86400`: rejected with 1 second
remaining at `T + W - 1`, proceeds at `T + W`. -/
theorem cooldown_boundary_witness :
    claim_check "s" none 86400 sampleLedgerClaimed "1" ((100 : Int) + 86400 - 1) =
      .reject (.CooldownActive 1) ∧
    claim_check "s" none 86400 sampleLedgerClaimed "1" ((100 : Int) + 86400) =
      .proceed "ab" ((100 : Int) + 86400) :=
  (cooldown_boundary "s" none 86400 sampleLedgerClaimed "1"
    { address := some "ab", registered_at := some 3, last_claim_at := some 100 }
    "ab" (by decide) (by decide) rfl (by decide) (by decide)).1 100 rfl
    (by decide)

/-! ## Claim C10: whoami agrees with the claim cooldown gate -/

/-- Claim C10: for a registered record, `whoami` reports ready at time
`t` exactly when a claim checked at time `t` passes the cooldown gate
and proceeds to the transfer, and when not ready both compute the same
remaining time `last_claim_at + W - t`. -/
theorem whoami_claim_agree (secret : String) (sender : Option String) (W : Int)
    (data : Ledger) (uid : String) (rec : UserRecord) (a : String) (t : Int)
    (hsecret : secret ≠ "") (hrec : get_user data uid = some rec)
    (haddr : rec.address = some a) (hne : a ≠ "")
    (hsender : matchesSender sender a = false) :
    (whoami data uid W t = .Ready a ↔
      claim_check secret sender W data uid t = .proceed a t) ∧
    (∀ rem, whoami data uid W t = .Cooldown a rem ↔
      claim_check secret sender W data uid t = .reject (.CooldownActive rem)) := by
  rw [whoami_eq data uid W t rec a hrec haddr hne,
    claim_check_eq secret sender W data uid rec a t hsecret hrec haddr hne
      hsender]
  by_cases hcd : rec.last_claim_at.getD 0 ≠ 0 ∧ t < rec.last_claim_at.getD 0 + W
  · rw [if_pos hcd, if_neg (by omega)]
    exact ⟨by simp, fun rem => by simp⟩
  · rw [if_neg hcd, if_pos (by omega)]
    exact ⟨by simp, fun rem => by simp⟩

/-- Claim C10 witness: a user in cooldown (`T = 100`, `W = 86400`) at
time 50 is reported not ready by `whoami` exactly as claim rejects. -/
theorem whoami_claim_agree_witness :
    whoami sampleLedgerClaimed "1" 86400 50 = .Cooldown "ab" 86450 ↔
    claim_check "s" none 86400 sampleLedgerClaimed "1" 50 =
      .reject (.CooldownActive 86450) :=
  (whoami_claim_agree "s" none 86400 sampleLedgerClaimed "1"
    { address := some "ab", registered_at := some 3, last_claim_at := some 100 }
    "ab" 50 (by decide) (by decide) rfl (by decide) (by decide)).2 86450

/-! ## Claim C4: self-address guard -/

/-- Claim C4: when the operator payout address is known, registering a
raw address that normalizes to it fails `SelfAddressRejected` with the
ledger untouched; a claim whose registered address equals it fails
`SelfAddressRejected` before the transfer is consulted; and the claim
guard also fires when the address was registered while the operator
address was still unknown. -/
theorem self_address_guard (data : Ledger) (uid raw s secret : String)
    (W t tc : Int)
    (hnorm : normalize_addr raw = some s) (hsecret : secret ≠ "") :
    (register_address (some s) data uid raw t = (data, .SelfAddressRejected)) ∧
    (∀ rec, get_user data uid = some rec → rec.address = some s →
      claim_check secret (some s) W data uid tc = .reject .SelfAddressRejected ∧
      ∀ tr, claim secret (some s) W data uid tc tr =
        (data, .SelfAddressRejected)) ∧
    ((register_address none data uid raw t).2 = .Registered s ∧
      ∀ tr, claim secret (some s) W
          (register_address none data uid raw t).1 uid tc tr =
        ((register_address none data uid raw t).1, .SelfAddressRejected)) := by
  have hne : s ≠ "" := normalize_addr_ne_empty hnorm
  have hguard : ∀ d : Ledger, ∀ rec : UserRecord, get_user d uid = some rec →
      rec.address = some s →
      claim_check secret (some s) W d uid tc = .reject .SelfAddressRejected := by
    intro d rec hrec haddr
    simp only [claim_check, if_neg hsecret, hrec, haddr, if_neg hne,
      matchesSender, beq_self_eq_true, if_true]
  refine ⟨?_, ?_, ?_⟩
  · simp only [register_address, hnorm, matchesSender, beq_self_eq_true,
      if_true]
  · intro rec hrec haddr
    refine ⟨hguard data rec hrec haddr, fun tr => ?_⟩
    simp only [claim, hguard data rec hrec haddr]
  · have hreg : register_address none data uid raw t =
        (set_user data uid
          { address := some s, registered_at := some t,
            last_claim_at :=
              some (((get_user data uid).getD {}).last_claim_at.getD 0) },
          .Registered s) := by
      simp only [register_address, hnorm, matchesSender]
      rw [if_neg Bool.false_ne_true]
    rw [hreg]
    refine ⟨rfl, fun tr => ?_⟩
    have hrec1 : get_user (set_user data uid
        { address := some s, registered_at := some t,
          last_claim_at :=
            some (((get_user data uid).getD {}).last_claim_at.getD 0) }) uid =
        some
          { address := some s, registered_at := some t,
            last_claim_at :=
              some (((get_user data uid).getD {}).last_claim_at.getD 0) } := by
      simp [get_user, set_user]
    simp only [claim, hguard _ _ hrec1 rfl]

/-- Claim C4 witness: with the operator address known to be the 40-`a`
address, registering that same address is rejected with the ledger
untouched. -/
theorem self_address_guard_witness :
    register_address (some (String.mk (List.replicate 40 'a'))) empty_ledger
        "1" (String.mk (List.replicate 40 'a')) 0 =
      (empty_ledger, .SelfAddressRejected) :=
  (self_address_guard empty_ledger "1" (String.mk (List.replicate 40 'a'))
    (String.mk (List.replicate 40 'a')) "s" 86400 0 0 (by decide)
    (by decide)).1

/-! ## Claim C5: re-registration preserves the cooldown -/

/-- Claim C5: registering twice with different valid addresses stores
the second address with `registered_at` set to the second registration
time while `last_claim_at` keeps the value from before either
registration; a first registration of an unknown identity creates the
record with `last_claim_at = 0`. -/
theorem reregistration (sender : Option String) (data : Ledger)
    (uid raw1 raw2 a1 a2 : String) (t1 t2 : Int)
    (h1 : normalize_addr raw1 = some a1) (h2 : normalize_addr raw2 = some a2)
    (hs1 : matchesSender sender a1 = false)
    (hs2 : matchesSender sender a2 = false) :
    (register_address sender data uid raw1 t1).2 = .Registered a1 ∧
    (register_address sender (register_address sender data uid raw1 t1).1
        uid raw2 t2).2 = .Registered a2 ∧
    get_user (register_address sender
        (register_address sender data uid raw1 t1).1 uid raw2 t2).1 uid =
      some { address := some a2, registered_at := some t2,
             last_claim_at :=
               some (((get_user data uid).getD {}).last_claim_at.getD 0) } ∧
    (get_user data uid = none →
      get_user (register_address sender data uid raw1 t1).1 uid =
        some { address := some a1, registered_at := some t1,
               last_claim_at := some 0 }) := by
  have hreg1 : register_address sender data uid raw1 t1 =
      (set_user data uid
        { address := some a1, registered_at := some t1,
          last_claim_at :=
            some (((get_user data uid).getD {}).last_claim_at.getD 0) },
        .Registered a1) := by
    simp only [register_address, h1, hs1, Bool.false_eq_true, if_false]
  rw [hreg1]
  have hget1 : get_user (set_user data uid
      { address := some a1, registered_at := some t1,
        last_claim_at :=
          some (((get_user data uid).getD {}).last_claim_at.getD 0) }) uid =
      some
        { address := some a1, registered_at := some t1,
          last_claim_at :=
            some (((get_user data uid).getD {}).last_claim_at.getD 0) } := by
    simp [get_user, set_user]
  refine ⟨rfl, ?_, ?_, ?_⟩
  · simp only [register_address, h2, hs2, Bool.false_eq_true, if_false]
  · simp only [register_address, h2, hs2, Bool.false_eq_true, if_false,
      hget1, Option.getD_some, get_user, set_user]
    simp
  · intro hnone
    rw [hget1, hnone]
    rfl

/-- Claim C5 witness: re-registering identity `1` (last claim at 100)
with the 40-`b` address keeps `last_claim_at = 100` and updates
`registered_at` to the second registration time. -/
theorem reregistration_witness :
    get_user (register_address none
        (register_address none sampleLedgerClaimed "1"
          (String.mk (List.replicate 40 'a')) 10).1 "1"
        (String.mk (List.replicate 40 'b')) 20).1 "1" =
      some { address := some (String.mk (List.replicate 40 'b')),
             registered_at := some 20,
             last_claim_at :=
               some (((get_user sampleLedgerClaimed "1").getD
                 {}).last_claim_at.getD 0) } :=
  (reregistration none sampleLedgerClaimed "1"
    (String.mk (List.replicate 40 'a')) (String.mk (List.replicate 40 'b'))
    (String.mk (List.replicate 40 'a')) (String.mk (List.replicate 40 'b'))
    10 20 (by decide) (by decide) rfl rfl).2.2.1

/-! ## Claim C7: the commit phase's frame -/

/-- Claim C7 counterexample: the commit phase does not persist a
concurrently changed address unchanged.  With the current record holding
address `"bb"` at commit time, committing a claim whose check phase read
address `"aa"` writes `"aa"` back, overwriting the re-registration. -/
theorem claim_commit_counterexample :
    get_user (claim_commit
        (set_user empty_ledger "1"
          { address := some "bb", registered_at := some 5,
            last_claim_at := some 0 })
        "1" "aa" 7) "1" =
      some { address := some "aa", registered_at := some 5,
             last_claim_at := some 7 } ∧
    (some "aa" : Option String) ≠ some "bb" :=
  ⟨by decide, by decide⟩

/-- Claim C7 (amended): the commit phase re-acquires exclusive access,
re-reads the current record, sets `last_claim_at` to the time computed
at the cooldown check and also resets `address` to the address read at
the check phase (overwriting any concurrent re-registration);
`registered_at` of the re-read record and every other identity's record
are persisted unchanged. -/
theorem claim_commit_spec (data2 : Ledger) (uid to_addr : String) (t : Int) :
    get_user (claim_commit data2 uid to_addr t) uid =
      some { (get_user data2 uid).getD {} with
             address := some to_addr, last_claim_at := some t } ∧
    (get_user (claim_commit data2 uid to_addr t) uid).map
        UserRecord.registered_at =
      some ((get_user data2 uid).getD {}).registered_at ∧
    (∀ uid2, uid2 ≠ uid →
      get_user (claim_commit data2 uid to_addr t) uid2 =
        get_user data2 uid2) := by
  refine ⟨by simp [claim_commit, get_user, set_user], ?_, ?_⟩
  · simp [claim_commit, get_user, set_user]
  · intro uid2 h
    simp [claim_commit, get_user, set_user, if_neg h]

/-- Claim C7 witness: committing identity `1`'s claim leaves identity
`2`'s lookup unchanged. -/
theorem claim_commit_spec_witness :
    get_user (claim_commit sampleLedger "1" "cd" 9) "2" =
      get_user sampleLedger "2" :=
  (claim_commit_spec sampleLedger "1" "cd" 9).2.2 "2" (by decide)

/-! ## Claim C8: crash-safe persistence -/

/-- Claim C8: `save_data` writes the snapshot to the tmp location and
only then atomically replaces the canonical location, so after the run
the canonical store holds the new snapshot, and at every crash point
(before, during, or after either operation) it holds either the
complete old content or the complete new snapshot — never a partial
write, which can only reach the tmp location. -/
theorem save_data_atomic (fs : FaucetStore) (snapshot : String) :
    (List.foldl applyOp fs (save_data snapshot)).canonical = some snapshot ∧
    (∀ fs', crashReach fs (save_data snapshot) fs' →
      fs'.canonical = fs.canonical ∨ fs'.canonical = some snapshot) := by
  constructor
  · rfl
  · intro fs' h
    cases h with
    | here => exact Or.inl rfl
    | mid _ _ _ _ hmid =>
      obtain ⟨n, rfl⟩ := hmid
      exact Or.inl rfl
    | step _ _ _ _ h1 =>
      cases h1 with
      | here => exact Or.inl rfl
      | mid _ _ _ _ hmid =>
        rcases hmid with rfl | rfl
        · exact Or.inl rfl
        · exact Or.inr rfl
      | step _ _ _ _ h2 =>
        cases h2 with
        | here => exact Or.inr rfl

/-- Claim C8 witness: saving `"new"` over a store whose canonical file
holds `"old"` ends with canonical `"new"`, and a crash in the middle of
the tmp write leaves canonical still `"old"`. -/
theorem save_data_atomic_witness :
    (List.foldl applyOp { tmp := none, canonical := some "old" }
        (save_data "new")).canonical = some "new" ∧
    (({ tmp := some (String.take "new" 1), canonical := some "old" } :
        FaucetStore).canonical =
      ({ tmp := none, canonical := some "old" } : FaucetStore).canonical ∨
    ({ tmp := some (String.take "new" 1), canonical := some "old" } :
        FaucetStore).canonical = some "new") :=
  ⟨(save_data_atomic { tmp := none, canonical := some "old" } "new").1,
   (save_data_atomic { tmp := none, canonical := some "old" } "new").2 _
     (crashReach.mid _ _ _ _ ⟨1, rfl⟩)⟩

/-! ## Claim C9: fatal conditions at startup -/

/-- Claim C9 counterexample: startup succeeds with the operator
credential empty — only the chat token is checked at startup — and the
missing credential is instead discovered per-request: the claim handler
answers with a recoverable misconfiguration message, ledger unchanged. -/
theorem startup_counterexample :
    main "token" "" none = .ok () ∧
    claim "" none 86400 empty_ledger "1" 0 (.failure "x") =
      (empty_ledger, .Misconfigured) :=
  ⟨rfl, rfl⟩

/-- Claim C9 (amended): the only fatal startup condition is a missing
chat token; a missing operator credential does not prevent the process
from starting and is reported per-request by the claim handler as a
recoverable message with the ledger unchanged; the store location is
defaulted when unset, not required. -/
theorem startup_spec (tok secret : String) (df : Option String) :
    (main tok secret df = .ok () ↔ tok ≠ "") ∧
    (secret = "" → ∀ sender W data uid t tr,
      claim secret sender W data uid t tr = (data, .Misconfigured)) ∧
    dataFileOf none = "discord_pow_faucet.json" := by
  refine ⟨?_, ?_, rfl⟩
  · by_cases h : tok = "" <;> simp [main, h]
  · intro h sender W data uid t tr
    subst h
    simp [claim, claim_check]

/-- Claim C9 witness: with the operator credential empty, the claim
handler returns the misconfiguration message for a registered user. -/
theorem startup_spec_witness :
    claim "" (some "zz") 86400 sampleLedger "1" 50 (.success 1 2) =
      (sampleLedger, .Misconfigured) :=
  (startup_spec "tok" "" none).2.1 rfl (some "zz") 86400 sampleLedger "1" 50
    (.success 1 2)

/-! ## Claim C3: concurrent claims by one identity -/

/-- Claim C3 (code bug): in the permitted interleaving where both
claims of identity `1` pass the check phase before either commits (the
file lock is released during the transfer call, and the code keeps no
per-identity in-progress marker), both transfers are issued; when both
succeed, both invocations report `Success` — two successful transfers
for one identity inside one cooldown window, where the claim requires
exactly one success and one rejection. -/
theorem double_spend_interleaving :
    (claim_pair_interleaved "s" none 86400 sampleLedger "1" 0 0
        (.success 95 5) (.success 90 10)).2 =
      (.Success 95 5, .Success 90 10) := by
  decide

end PowFaucet
